import Mathlib

/-!
Verification of the Flint gateway core against its specification.

Each definition in this file is a shallow embedding of a function from the
Flint repository (TypeScript).  The embedded sources are:

* `apps/gateway/src/session-lifecycle.ts` — session reset policies, reset
  command parsing;
* `apps/gateway/src/index.ts` (shipped inside `index.test.ts`) — thread
  identity resolution, the per-thread FIFO queue, the idempotency store and
  the HTTP fingerprints;
* the SDK `AppServerClient` — process lifecycle, reverse JSON-RPC requests,
  notification translation and the Codex MCP-config mapping.

JavaScript numbers that hold epoch milliseconds are modelled as `Int`;
`Date.parse` (a host primitive) is modelled as an explicit parameter of type
`String → Option Int`, `none` standing for `NaN`.  The host's local time zone
is modelled as a fixed offset in milliseconds (daylight-saving transitions are
outside the model).  JavaScript runtime values that flow through untyped
`Record<string, unknown>` code are modelled by the `JValue` type below, with
`JValue.undefined` standing for JavaScript `undefined`.
-/

namespace Flint

/-- JavaScript runtime values as they appear in the untyped parts of the
code (`Record<string, unknown>` and friends).  `undefined` models the JavaScript undefined value;
objects are insertion-ordered association lists, as JavaScript objects are. -/
inductive JValue where
  | undefined : JValue
  | null : JValue
  | bool : Bool → JValue
  | num : Int → JValue
  | str : String → JValue
  | arr : List JValue → JValue
  | obj : List (String × JValue) → JValue
  deriving Repr

/-- JavaScript property access `v[k]`: on objects, the entry for `k`
(`undefined` when absent); on every non-object value, `undefined`
(the model does not need prototype properties). -/
def JValue.get : JValue → String → JValue
  | .obj entries, k =>
    match entries.find? (fun kv => kv.1 = k) with
    | some kv => kv.2
    | none => .undefined
  | _, _ => .undefined

/-- JavaScript truthiness of a modelled value. -/
def JValue.truthy : JValue → Bool
  | .undefined => false
  | .null => false
  | .bool b => b
  | .num n => n ≠ 0
  | .str s => s ≠ ""
  | .arr _ => true
  | .obj _ => true

/-- `v == undefined || v == null`, the set `??` and `?.` test for. -/
def JValue.nullish : JValue → Bool
  | .undefined => true
  | .null => true
  | _ => false

/-- Keys of a modelled object entry list. -/
def jkeys (entries : List (String × JValue)) : List String :=
  entries.map (·.1)

/-- First-match association-list lookup (JavaScript `Map.get` /
unique-key object access). -/
def alookup {α : Type} (k : String) : List (String × α) → Option α
  | [] => none
  | kv :: rest => if kv.1 = k then some kv.2 else alookup k rest

/-! ## Shared string helpers

JavaScript's `trim`, `toLowerCase`, `startsWith`, `indexOf` and `split`
are modelled over the character list of the string (all are
code-point-wise operations); the models are written with structural
recursion so that concrete instances evaluate inside the kernel. -/

/-- `String.prototype.trim`: strip leading and trailing whitespace. -/
def jsTrim (s : String) : String :=
  String.mk (((s.data.dropWhile Char.isWhitespace).reverse.dropWhile
    Char.isWhitespace).reverse)

/-- `String.prototype.toLowerCase` (character-wise lowering). -/
def jsToLower (s : String) : String :=
  String.mk (s.data.map Char.toLower)

/-- `haystack.startsWith(needle)`. -/
def jsStartsWith (haystack needle : String) : Bool :=
  needle.data.isPrefixOf haystack.data

/-- Worker for `jsSplit`: accumulates the current (reversed) run and cuts
at every separator character. -/
def jsSplitAux (p : Char → Bool) (cur : List Char) : List Char → List String
  | [] => [String.mk cur.reverse]
  | c :: rest =>
    if p c then String.mk cur.reverse :: jsSplitAux p [] rest
    else jsSplitAux p (c :: cur) rest

/-- Split at every character matching `p` (empty pieces included, as with
`String.prototype.split`); followed by `filter(Boolean)` this coincides
with splitting on `/\s+/` runs. -/
def jsSplit (s : String) (p : Char → Bool) : List String :=
  jsSplitAux p [] s.data

/-! ## `normalizeToken` family (gateway)

From `apps/gateway/src/index.test.ts` (the gateway implementation section)
and `session-lifecycle.ts`:

```ts
export function normalizeToken(value: string | undefined | null): string {
  return (value ?? "").trim().toLowerCase();
}
```
-/

/-- `normalizeToken`: `(value ?? "").trim().toLowerCase()`. -/
def normalizeToken (value : Option String) : String :=
  jsToLower (jsTrim (value.getD ""))

/-- `normalizeOptionalToken`: the normalized token, or `undefined` when it
is empty (`normalized || undefined`). -/
def normalizeOptionalToken (value : Option String) : Option String :=
  let normalized := normalizeToken value
  if normalized = "" then none else some normalized

/-! ## Session lifecycle (`apps/gateway/src/session-lifecycle.ts`) -/

/-- A resolved session reset policy (`ResolvedSessionResetPolicy`):
`{dailyAtHour?, idleMinutes?}`; both absent means "off". -/
structure ResolvedSessionResetPolicy where
  dailyAtHour : Option Int := none
  idleMinutes : Option Int := none
  deriving Repr, DecidableEq

/-- Reset reasons (`"daily" | "idle"`). -/
inductive ResetReason where
  | daily : ResetReason
  | idle : ResetReason
  deriving Repr, DecidableEq

/-- `SessionResetEvaluation`: `{expired, reason?}`. -/
structure SessionResetEvaluation where
  expired : Bool
  reason : Option ResetReason := none
  deriving Repr, DecidableEq

/-- `resolveLatestDailyBoundary(nowMs, atHour)`: the most recent local-time
instant at `atHour:00:00.000`, as epoch ms.  `new Date(nowMs)` /
`setHours(atHour,0,0,0)` / `setDate(d-1)` work in the host's local time zone,
modelled here as the fixed offset `tzOffsetMs` (local = epoch + offset). -/
def resolveLatestDailyBoundary (tzOffsetMs nowMs atHour : Int) : Int :=
  let localMs := nowMs + tzOffsetMs
  let dayStart := 86400000 * (localMs.fdiv 86400000)
  let sameDay := dayStart + atHour * 3600000
  let boundaryLocal := if localMs < sameDay then sameDay - 86400000 else sameDay
  boundaryLocal - tzOffsetMs

/-- `evaluateSessionReset(updatedAtIso, nowMs, policy)`.  `parse` models the
host primitive `Date.parse` (`none` = `NaN`); `tzOffsetMs` the host's local
time-zone offset.  Mirrors the source: the falsy guard `!updatedAtIso`
(absent or empty string) returns not-expired; an unparseable timestamp
returns `{expired:true, reason:"daily"}`; then the daily check, then the
idle check. -/
def evaluateSessionReset (parse : String → Option Int) (tzOffsetMs : Int)
    (updatedAtIso : Option String) (nowMs : Int)
    (policy : ResolvedSessionResetPolicy) : SessionResetEvaluation :=
  match updatedAtIso with
  | none => { expired := false }
  | some iso =>
    if iso = "" then { expired := false }
    else
      match parse iso with
      | none => { expired := true, reason := some .daily }
      | some updatedAtMs =>
        let dailyExpired :=
          match policy.dailyAtHour with
          | some h => decide (updatedAtMs < resolveLatestDailyBoundary tzOffsetMs nowMs h)
          | none => false
        if dailyExpired then { expired := true, reason := some .daily }
        else
          let idleExpired :=
            match policy.idleMinutes with
            | some m => decide (updatedAtMs < nowMs - m * 60000)
            | none => false
          if idleExpired then { expired := true, reason := some .idle }
          else { expired := false }

/-! ### Reset command parsing (`parseResetCommand`, `parseNewSessionTarget`) -/

/-- `SessionResetCommandResult`. -/
structure SessionResetCommandResult where
  triggered : Bool
  trigger : Option String := none
  nextText : String
  providerOverride : Option String := none
  modelOverride : Option String := none
  deriving Repr, DecidableEq

/-- `NewSessionTarget`: `{consumed, provider?, model?}`. -/
structure NewSessionTarget where
  consumed : Bool
  provider : Option String := none
  model : Option String := none
  deriving Repr, DecidableEq

/-- Parameters of `parseResetCommand`. -/
structure ResetCommandParams where
  text : String
  resetTriggers : List String
  greetingPrompt : String
  providerHints : List String := []
  deriving Repr

/-- `trimmed.indexOf(" ")` split: the part before the first space and,
when a space exists, the part after it. -/
def splitAtFirstSpace (s : String) : String × Option String :=
  let cs := s.toList
  match cs.findIdx? (· = ' ') with
  | none => (s, none)
  | some i => (String.mk (cs.take i), some (String.mk (cs.drop (i + 1))))

/-- Worker for `dedupKeepFirst`: `seen` holds the values already emitted. -/
def dedupKeepFirstAux (seen : List String) : List String → List String
  | [] => []
  | x :: xs =>
    if seen.contains x then dedupKeepFirstAux seen xs
    else x :: dedupKeepFirstAux (x :: seen) xs

/-- `Array.from(new Set(...))`: deduplicate keeping first occurrences. -/
def dedupKeepFirst (l : List String) : List String :=
  dedupKeepFirstAux [] l

/-- `resolveProviderAlias(value, providerHints)`: exact match against the
normalized, deduplicated hints, else a unique-prefix match. -/
def resolveProviderAlias (value : String) (providerHints : List String) : Option String :=
  let candidate := normalizeToken (some value)
  if candidate = "" then none
  else
    let normalizedHints :=
      dedupKeepFirst ((providerHints.map (fun p => normalizeToken (some p))).filter (· ≠ ""))
    if normalizedHints.contains candidate then some candidate
    else
      match normalizedHints.filter (fun p => jsStartsWith p candidate) with
      | [unique] => some unique
      | _ => none

/-- `/[0-9\-_:./]/.test(value)`. -/
def looksLikeModelToken (value : String) : Bool :=
  value.data.any (fun c => c.isDigit || c = '-' || c = '_' || c = ':' || c = '.' || c = '/')

/-- `parseNewSessionTarget(token, providerHints, {hasTrailingPrompt})`.
`provider/model` form first (slash neither leading nor trailing), then a bare
provider alias, then — only when no prompt text follows or the token looks
model-like — a bare model. -/
def parseNewSessionTarget (token : String) (providerHints : List String)
    (hasTrailingPrompt : Bool) : NewSessionTarget :=
  let cleaned := jsTrim token
  if cleaned = "" then { consumed := false }
  else
    let cs := cleaned.data
    match cs.findIdx? (· = '/') with
    | some i =>
      if 0 < i ∧ i < cs.length - 1 then
        let provider := resolveProviderAlias (String.mk (cs.take i)) providerHints
        let model := jsTrim (String.mk (cs.drop (i + 1)))
        match provider with
        | some p =>
          { consumed := true, provider := some p
            model := if model = "" then none else some model }
        | none => { consumed := true, model := some cleaned }
      else
        parseNewSessionTargetBare cleaned providerHints hasTrailingPrompt
    | none =>
      parseNewSessionTargetBare cleaned providerHints hasTrailingPrompt
where
  /-- The bare-token tail of `parseNewSessionTarget` (no usable
  `provider/model` split). -/
  parseNewSessionTargetBare (cleaned : String) (providerHints : List String)
      (hasTrailingPrompt : Bool) : NewSessionTarget :=
    match resolveProviderAlias cleaned providerHints with
    | some providerOnly => { consumed := true, provider := some providerOnly }
    | none =>
      if hasTrailingPrompt ∧ ¬ looksLikeModelToken cleaned then { consumed := false }
      else { consumed := true, model := some cleaned }

/-- The trigger-recognition and target-consumption core of
`parseResetCommand`: `none` when no trigger fires; otherwise the trigger
token, the final remainder text, and the provider/model overrides. -/
def parseResetCore (p : ResetCommandParams) :
    Option (String × String × Option String × Option String) :=
  let trimmed := jsTrim p.text
  if ¬ jsStartsWith trimmed "/" then none
  else
    let (head, tail) := splitAtFirstSpace trimmed
    let command := normalizeToken (some head)
    if ¬ p.resetTriggers.contains command then none
    else
      let remainder := jsTrim (tail.getD "")
      if command = "/new" ∧ remainder ≠ "" then
        let tokens := (jsSplit remainder Char.isWhitespace).filter (· ≠ "")
        match tokens with
        | [] => some (command, remainder, none, none)
        | firstToken :: rest =>
          let selection :=
            parseNewSessionTarget firstToken p.providerHints (decide (tokens.length > 1))
          if selection.consumed then
            some (command, jsTrim (String.intercalate " " rest),
              selection.provider, selection.model)
          else
            some (command, remainder, none, none)
      else
        some (command, remainder, none, none)

/-- `parseResetCommand(params)`: wraps `parseResetCore`; an empty final
remainder is replaced by the configured greeting prompt. -/
def parseResetCommand (p : ResetCommandParams) : SessionResetCommandResult :=
  match parseResetCore p with
  | none => { triggered := false, nextText := p.text }
  | some (command, remainder, providerOverride, modelOverride) =>
    { triggered := true
      trigger := some command
      nextText := if remainder = "" then p.greetingPrompt else remainder
      providerOverride := providerOverride
      modelOverride := modelOverride }

/-- `DEFAULT_RESET_TRIGGERS`. -/
def defaultResetTriggers : List String := ["/new", "/reset"]

/-- `BUILTIN_PROVIDER_HINTS` (gateway). -/
def builtinProviderHints : List String := ["claude", "pi", "codex"]

/-! ## Thread identity (`resolveThreadId` and helpers, gateway) -/

/-- `ChatType`: `"direct" | "group" | "channel"`. -/
inductive ChatType where
  | direct : ChatType
  | group : ChatType
  | channel : ChatType
  deriving Repr, DecidableEq

/-- The wire token of a chat type (as interpolated into thread ids). -/
def ChatType.token : ChatType → String
  | .direct => "direct"
  | .group => "group"
  | .channel => "channel"

/-- `RoutingMode`. -/
inductive RoutingMode where
  | main : RoutingMode
  | perPeer : RoutingMode
  | perChannelPeer : RoutingMode
  | perAccountChannelPeer : RoutingMode
  deriving Repr, DecidableEq

/-- The routing-relevant fields of `InboundMessage` (`channel` and `userId`
are required strings; the rest are optional). -/
structure InboundMessage where
  channel : String
  userId : String
  chatType : Option ChatType := none
  peerId : Option String := none
  accountId : Option String := none
  identityId : Option String := none
  channelThreadId : Option String := none
  deriving Repr

/-- `normalizeChatType(value)`: `group` and `channel` pass through, anything
else becomes `direct`. -/
def normalizeChatType (value : Option ChatType) : ChatType :=
  match value with
  | some .group => .group
  | some .channel => .channel
  | _ => .direct

/-- `resolvePeerId(message)`: normalized `peerId`, else normalized
`userId`, else `"unknown"`. -/
def resolvePeerId (message : InboundMessage) : String :=
  let peerId :=
    let p := normalizeToken message.peerId
    if p = "" then normalizeToken (some message.userId) else p
  if peerId = "" then "unknown" else peerId

/-- The identity-link table: insertion-ordered `{canonicalId → [token, …]}`. -/
def IdentityLinks : Type := List (String × List String)

/-- Candidate-token loop of `resolveLinkedIdentity`: `true` when some
normalized id equals `peerId` or `channel:peerId`. -/
def identityLinkMatches (channel peerId : String) (ids : List String) : Bool :=
  ids.any (fun id =>
    let candidate := normalizeToken (some id)
    candidate ≠ "" ∧ (candidate = peerId ∨ candidate = channel ++ ":" ++ peerId))

/-- `resolveLinkedIdentity({channel, peerId, identityLinks})`: the first
canonical id (insertion order) with a matching token. -/
def resolveLinkedIdentity (channel peerId : String) : IdentityLinks → Option String
  | [] => none
  | (canonicalRaw, ids) :: rest =>
    if peerId = "" then none
    else
      let canonical := normalizeToken (some canonicalRaw)
      if canonical ≠ "" ∧ identityLinkMatches channel peerId ids then some canonical
      else resolveLinkedIdentity channel peerId rest

/-- `maybeWithThreadSuffix(baseThreadId, channelThreadId)`. -/
def maybeWithThreadSuffix (baseThreadId : String) (channelThreadId : Option String) : String :=
  match normalizeOptionalToken channelThreadId with
  | none => baseThreadId
  | some thread => baseThreadId ++ ":thread:" ++ thread

/-- `resolveThreadId(message, routingMode, identityLinks)`. -/
def resolveThreadId (message : InboundMessage) (routingMode : RoutingMode)
    (identityLinks : IdentityLinks) : String :=
  let channel :=
    let c := normalizeToken (some message.channel)
    if c = "" then "unknown" else c
  let accountId :=
    let a := normalizeToken message.accountId
    if a = "" then "default" else a
  let chatType := normalizeChatType message.chatType
  let peerId := resolvePeerId message
  let identityId := normalizeOptionalToken message.identityId
  if chatType ≠ .direct then
    maybeWithThreadSuffix ("agent:main:" ++ channel ++ ":" ++ chatType.token ++ ":" ++ peerId)
      message.channelThreadId
  else
    let linkedIdentity := resolveLinkedIdentity channel peerId identityLinks
    let principal := (identityId.orElse (fun _ => linkedIdentity)).getD peerId
    match routingMode with
    | .main => "agent:main:main"
    | .perPeer => "agent:main:direct:" ++ principal
    | .perChannelPeer =>
      maybeWithThreadSuffix ("agent:main:" ++ channel ++ ":direct:" ++ principal)
        message.channelThreadId
    | .perAccountChannelPeer =>
      maybeWithThreadSuffix
        ("agent:main:" ++ channel ++ ":" ++ accountId ++ ":direct:" ++ principal)
        message.channelThreadId

/-! ## Idempotency store (`IdempotencyStore`, gateway) -/

/-- `IdempotentResult`: `{status, body}`; the body is a JSON object. -/
structure IdemResult where
  status : Nat
  body : List (String × JValue)
  deriving Repr

/-- `IdempotencyEntry`: `{ts, fingerprint, result}`. -/
structure IdemEntry where
  ts : Int
  fingerprint : String
  result : IdemResult
  deriving Repr

/-- The persistent state of an `IdempotencyStore`: the TTL and the
completed-entry map (`done`).  The in-flight map coalesces concurrent
submissions and is empty between requests; this model executes requests
one at a time, so it is omitted. -/
structure IdemState where
  ttlMs : Int
  done : List (String × IdemEntry)
  deriving Repr

/-- `cleanup()`: drop completed entries with `now - entry.ts > ttlMs`. -/
def idemCleanup (now : Int) (s : IdemState) : IdemState :=
  { s with done := s.done.filter (fun kv => ¬ (now - kv.2.ts > s.ttlMs)) }

/-- The 409-shaped conflict result returned when a key is reused with a
different fingerprint. -/
def idemConflictResult : IdemResult :=
  { status := 409
    body :=
      [("error", .str "Idempotency key conflict."),
       ("details", .str "This idempotency key was already used with a different payload.")] }

/-- `execute(key, fingerprint, task)` for a single request: returns the
result, the `cached` flag and the updated store.  `taskResult` is the value
`task` would produce if run. -/
def idemExecute (s : IdemState) (key fingerprint : String) (now : Int)
    (taskResult : IdemResult) : IdemResult × Bool × IdemState :=
  let s := idemCleanup now s
  match alookup key s.done with
  | some completed =>
    if completed.fingerprint ≠ fingerprint then (idemConflictResult, true, s)
    else (completed.result, true, s)
  | none =>
    (taskResult, false,
      { s with done := s.done ++ [(key, { ts := now, fingerprint, result := taskResult })] })

/-! ## HTTP idempotency fingerprints (`createGatewayApp`, gateway)

`POST /v1/threads` calls `idempotency.execute(key, `/v1/threads:${rawBody}`, …)`;
`POST /v1/threads/:threadId` calls `idempotency.execute(key,
`${threadId}:${rawBody}`, …)`. -/

/-- The fingerprint passed to `execute` by `POST /v1/threads`. -/
def threadsRouteFingerprint (rawBody : String) : String :=
  "/v1/threads:" ++ rawBody

/-- The fingerprint passed to `execute` by `POST /v1/threads/:threadId`. -/
def threadMessageRouteFingerprint (threadId rawBody : String) : String :=
  threadId ++ ":" ++ rawBody

/-! ## Per-thread FIFO queue (`PerKeyQueue`, gateway)

`enqueue(key, task)` pushes a wrapped task onto `queues.get(key)` and calls
`void this.drain(key)`.  `drain` returns at once when the key is in the
`running` set; otherwise it adds the key and loops: `shift()` the head task,
`await job()`, repeat until the queue is empty, then (in `finally`) removes
the key from `running` and drops the empty queue entry.

The model below is the transition system of a single key (the per-key map
entries are independent).  JavaScript is single-threaded, so each labelled
step is atomic there; the model allows every interleaving of these steps,
which is strictly more permissive.  Tasks are named by `Nat` labels, and two
audit logs record the submission order and the execution-start order. -/

/-- One invocation of `drain(key)` that passed the `running` guard: at the
top of its `while` loop (`idle`) or awaiting `job()` (`busy task`). -/
inductive DrainPhase where
  | idle : DrainPhase
  | busy : Nat → DrainPhase
  deriving Repr, DecidableEq

/-- `true` on a drain instance currently awaiting a task. -/
def DrainPhase.isBusy : DrainPhase → Bool
  | .idle => false
  | .busy _ => true

/-- The state of `PerKeyQueue` projected onto one key. -/
structure QueueState where
  /-- `queues.get(key)` (a missing entry is the empty list). -/
  pending : List Nat
  /-- `running.has(key)`. -/
  running : Bool
  /-- The `drain(key)` invocations currently executing past the guard. -/
  drains : List DrainPhase
  /-- Audit log: every task ever enqueued for the key, submission order. -/
  enqueued : List Nat
  /-- Audit log: every task whose `job()` call started, start order. -/
  begun : List Nat
  deriving Repr, DecidableEq

/-- The initial state: no queue entry, key not running, no drains. -/
def QueueState.init : QueueState :=
  { pending := [], running := false, drains := [], enqueued := [], begun := [] }

/-- The atomic steps of the queue on one key. -/
inductive QueueStep : QueueState → QueueState → Prop where
  /-- `enqueue`: push the task, then `void this.drain(key)`; the guard
  `if (this.running.has(key)) return` and `running.add(key)` run
  synchronously, so a new drain instance starts only when the key was not
  running. -/
  | enqueue (s : QueueState) (t : Nat) :
      QueueStep s
        { pending := s.pending ++ [t]
          running := true
          drains := if s.running then s.drains else s.drains ++ [.idle]
          enqueued := s.enqueued ++ [t]
          begun := s.begun }
  /-- Loop iteration: an idle drain finds the queue non-empty, shifts the
  head task and calls `await job()`. -/
  | shift (s : QueueState) (t : Nat) (rest : List Nat)
      (pre post : List DrainPhase) :
      s.pending = t :: rest →
      s.drains = pre ++ .idle :: post →
      QueueStep s
        { s with
          pending := rest
          drains := pre ++ .busy t :: post
          begun := s.begun ++ [t] }
  /-- The awaited `job()` resolves; the drain returns to its loop head. -/
  | finish (s : QueueState) (t : Nat) (pre post : List DrainPhase) :
      s.drains = pre ++ .busy t :: post →
      QueueStep s { s with drains := pre ++ .idle :: post }
  /-- Loop exit: an idle drain finds the queue empty; the `finally` block
  removes the key from `running` (and deletes the empty queue entry). -/
  | exit (s : QueueState) (pre post : List DrainPhase) :
      s.pending = [] →
      s.drains = pre ++ .idle :: post →
      QueueStep s { s with drains := pre ++ post, running := false }

/-- States reachable from the initial state. -/
def QueueReachable (s : QueueState) : Prop :=
  Relation.ReflTransGen QueueStep QueueState.init s

/-- The queue invariant: exactly one drain instance exists while the key is
in the `running` set (none otherwise), and the submission log is the
execution-start log followed by the still-pending tasks. -/
def QueueInv (s : QueueState) : Prop :=
  s.drains.length = (if s.running then 1 else 0) ∧
  s.enqueued = s.begun ++ s.pending

theorem queueInv_init : QueueInv QueueState.init := by
  constructor <;> rfl

theorem queueInv_step {s s' : QueueState} (hinv : QueueInv s)
    (hstep : QueueStep s s') : QueueInv s' := by
  obtain ⟨hlen, hlog⟩ := hinv
  cases hstep with
  | enqueue t =>
    refine ⟨?_, ?_⟩
    · by_cases hr : s.running <;> simp [hr] at hlen ⊢ <;> simp_all
    · simp [hlog]
  | shift t rest pre post hpend hdr =>
    refine ⟨?_, ?_⟩
    · simpa [hdr] using hlen
    · simp [hlog, hpend]
  | finish t pre post hdr =>
    exact ⟨by simpa [hdr] using hlen, hlog⟩
  | exit pre post hpend hdr =>
    have hone : pre.length + (post.length + 1) = (if s.running then 1 else 0) := by
      simpa [hdr] using hlen
    have hrun : s.running := by
      by_contra hr
      simp [hr] at hone
    have hpre : pre = [] := by
      rw [hrun] at hone
      simp at hone
      exact List.length_eq_zero.mp (by omega)
    have hpost : post = [] := by
      rw [hrun] at hone
      simp at hone
      exact List.length_eq_zero.mp (by omega)
    subst hpre hpost
    exact ⟨by simp, by simpa [hpend] using hlog⟩

theorem queueInv_reachable {s : QueueState} (h : QueueReachable s) :
    QueueInv s := by
  induction h with
  | refl => exact queueInv_init
  | tail _ hstep ih => exact queueInv_step ih hstep

/-! ## Lemmas -/

/-- A first-match lookup survives filtering when the found entry satisfies
the filter. -/
theorem alookup_filter {α : Type} (p : String × α → Bool) (k : String) (v : α) :
    ∀ l : List (String × α), alookup k l = some v → p (k, v) = true →
      alookup k (l.filter p) = some v := by
  intro l
  induction l with
  | nil => intro h; simp [alookup] at h
  | cons kv rest ih =>
    intro hfind hp
    by_cases hk : kv.1 = k
    · have hv : kv.2 = v := by
        simpa [alookup, hk] using hfind
      have hkv : kv = (k, v) := by
        cases kv; simp_all
      subst hkv
      simp [List.filter, hp, alookup]
    · have hrest : alookup k rest = some v := by
        simpa [alookup, hk] using hfind
      rcases hpkv : p kv with _ | _
      · simpa [List.filter, hpkv] using ih hrest hp
      · simpa [List.filter, hpkv, alookup, hk] using ih hrest hp

/-- Expiry characterization of `evaluateSessionReset` on a parseable,
non-empty timestamp: not expired iff the parsed instant is at or after the
daily boundary (when a daily hour is set) and at or after the idle boundary
(when idle minutes are set). -/
theorem evaluateSessionReset_parsed_not_expired (parse : String → Option Int)
    (tz : Int) (t : String) (now : Int) (policy : ResolvedSessionResetPolicy)
    (m : Int) (ht : t ≠ "") (hp : parse t = some m) :
    (evaluateSessionReset parse tz (some t) now policy).expired = false ↔
      ((∀ h, policy.dailyAtHour = some h → resolveLatestDailyBoundary tz now h ≤ m) ∧
       (∀ mi, policy.idleMinutes = some mi → now - mi * 60000 ≤ m)) := by
  unfold evaluateSessionReset
  rcases hd : policy.dailyAtHour with _ | h <;>
    rcases hi : policy.idleMinutes with _ | mi <;>
      simp [ht, hp, hd, hi, Int.not_lt] <;>
        split_ifs <;> simp_all [Int.not_lt] <;> omega

/-! ## Claim theorems: session lifecycle and thread identity -/

/-- Claim C8: for every resolved policy and fixed `now`, session-expiry
evaluation is monotone in `updatedAt` over well-formed (non-empty,
parseable) timestamps: a timestamp at or after one that does not evaluate
as expired does not evaluate as expired either, with daily expiry meaning
`updatedAt` is before the most recent local `dailyAtHour:00:00.000`
instant (shifted back 24 h when `now` precedes it) and idle expiry meaning
`updatedAt < now - idleMinutes·60000`. -/
theorem C8_session_reset_monotone (parse : String → Option Int) (tz : Int)
    (policy : ResolvedSessionResetPolicy) (now : Int) (t1 t2 : String)
    (m1 m2 : Int) (h1 : t1 ≠ "") (h2 : t2 ≠ "")
    (hp1 : parse t1 = some m1) (hp2 : parse t2 = some m2) (hle : m2 ≤ m1)
    (hnot : (evaluateSessionReset parse tz (some t2) now policy).expired = false) :
    (evaluateSessionReset parse tz (some t1) now policy).expired = false := by
  rw [evaluateSessionReset_parsed_not_expired parse tz t2 now policy m2 h2 hp2] at hnot
  rw [evaluateSessionReset_parsed_not_expired parse tz t1 now policy m1 h1 hp1]
  exact ⟨fun h hh => le_trans (hnot.1 h hh) hle,
    fun mi hmi => le_trans (hnot.2 mi hmi) hle⟩

/-- Witness for C8 at a concrete policy, parse function and pair of
timestamps. -/
theorem C8_witness :
    (evaluateSessionReset (fun _ => some 5) 0 (some "older") 0
        { dailyAtHour := some 0, idleMinutes := some 10 }).expired = false ∧
    (evaluateSessionReset (fun _ => some 5) 0 (some "newer") 0
        { dailyAtHour := some 0, idleMinutes := some 10 }).expired = false := by
  have hbase :
      (evaluateSessionReset (fun _ => some 5) 0 (some "older") 0
        { dailyAtHour := some 0, idleMinutes := some 10 }).expired = false := by decide
  exact ⟨hbase,
    C8_session_reset_monotone (fun _ => some 5) 0
      { dailyAtHour := some 0, idleMinutes := some 10 } 0 "newer" "older" 5 5
      (by decide) (by decide) rfl rfl le_rfl hbase⟩

/-- Claim C10 counterexample: `Date.parse("")` is `NaN` (modelled:
`parse "" = none`), yet `evaluateSessionReset` returns not-expired for the
empty-string timestamp — the falsy guard `!updatedAtIso` catches `""`
before parsing — contradicting the claim that every string that does not
parse as a finite timestamp yields an expired/"daily" result. -/
theorem C10_counterexample :
    ¬ ((evaluateSessionReset (fun _ => none) 0 (some "") 0 {}).expired = true) := by
  decide

/-- Claim C10 (amended): `evaluateSessionReset` returns not-expired when
`updatedAt` is absent or the empty string, and returns expired with reason
"daily" for every non-empty string that does not parse as a finite
timestamp, under every policy including the empty "off" policy. -/
theorem C10_unparseable_updatedAt (parse : String → Option Int) (tz now : Int)
    (policy : ResolvedSessionResetPolicy) :
    evaluateSessionReset parse tz none now policy = { expired := false } ∧
    evaluateSessionReset parse tz (some "") now policy = { expired := false } ∧
    ∀ s, s ≠ "" → parse s = none →
      evaluateSessionReset parse tz (some s) now policy =
        { expired := true, reason := some .daily } := by
  refine ⟨rfl, rfl, fun s hs hp => ?_⟩
  unfold evaluateSessionReset
  simp [hs, hp]

/-- Witness for C10 (amended) at a concrete unparseable timestamp and the
empty policy. -/
theorem C10_witness :
    evaluateSessionReset (fun _ => none) 0 (some "not-a-date") 0 {} =
      { expired := true, reason := some .daily } :=
  (C10_unparseable_updatedAt (fun _ => none) 0 0 {}).2.2 "not-a-date"
    (by decide) rfl

/-- Claim C9: parsing "/new claude/sonnet keep going" with provider hints
including "claude" yields trigger "/new", provider override "claude",
model override "sonnet" and next text "keep going"; and for every
triggered reset command whose remaining text after the consumed target
token is empty, the next text is the configured greeting prompt. -/
theorem C9_reset_command_retarget :
    (∀ g : String,
      parseResetCommand
          { text := "/new claude/sonnet keep going"
            resetTriggers := defaultResetTriggers
            greetingPrompt := g
            providerHints := builtinProviderHints } =
        { triggered := true, trigger := some "/new", nextText := "keep going"
          providerOverride := some "claude", modelOverride := some "sonnet" }) ∧
    ∀ p cmd po mo, parseResetCore p = some (cmd, "", po, mo) →
      (parseResetCommand p).nextText = p.greetingPrompt := by
  constructor
  · intro g
    rfl
  · intro p cmd po mo h
    simp [parseResetCommand, h]

/-- Witness for C9's universally quantified clause: a bare "/new" leaves an
empty remainder and the parser substitutes the greeting prompt. -/
theorem C9_witness :
    (parseResetCommand
        { text := "/new"
          resetTriggers := defaultResetTriggers
          greetingPrompt := "fresh session"
          providerHints := builtinProviderHints }).nextText = "fresh session" :=
  C9_reset_command_retarget.2
    { text := "/new"
      resetTriggers := defaultResetTriggers
      greetingPrompt := "fresh session"
      providerHints := builtinProviderHints }
    "/new" none none rfl

/-- Claim C1: for group/channel messages `resolveThreadId` returns
`agent:main:{channel}:{chatType}:{peerId}`, with `:thread:{id}` appended
when a normalized channel thread id is present, independent of routing
mode; for direct messages the principal is the first of normalized
identity id, matched identity link, or peer id, and the result follows the
routing mode as in the claim. -/
theorem C1_resolveThreadId_shape (m : InboundMessage) (mode : RoutingMode)
    (links : IdentityLinks) :
    (normalizeChatType m.chatType ≠ ChatType.direct →
      resolveThreadId m mode links =
        (let channel :=
          if normalizeToken (some m.channel) = "" then "unknown"
          else normalizeToken (some m.channel)
        let base := "agent:main:" ++ channel ++ ":" ++
          (normalizeChatType m.chatType).token ++ ":" ++ resolvePeerId m
        match normalizeOptionalToken m.channelThreadId with
        | none => base
        | some t => base ++ ":thread:" ++ t)) ∧
    (normalizeChatType m.chatType = ChatType.direct →
      resolveThreadId m mode links =
        (let channel :=
          if normalizeToken (some m.channel) = "" then "unknown"
          else normalizeToken (some m.channel)
        let accountId :=
          if normalizeToken m.accountId = "" then "default"
          else normalizeToken m.accountId
        let peerId := resolvePeerId m
        let principal :=
          match normalizeOptionalToken m.identityId with
          | some i => i
          | none =>
            match resolveLinkedIdentity channel peerId links with
            | some linked => linked
            | none => peerId
        let withSuffix := fun (base : String) =>
          match normalizeOptionalToken m.channelThreadId with
          | none => base
          | some t => base ++ ":thread:" ++ t
        match mode with
        | .main => "agent:main:main"
        | .perPeer => "agent:main:direct:" ++ principal
        | .perChannelPeer =>
          withSuffix ("agent:main:" ++ channel ++ ":direct:" ++ principal)
        | .perAccountChannelPeer =>
          withSuffix
            ("agent:main:" ++ channel ++ ":" ++ accountId ++ ":direct:" ++ principal))) := by
  constructor
  · intro hne
    unfold resolveThreadId maybeWithThreadSuffix
    simp [hne]
  · intro heq
    unfold resolveThreadId maybeWithThreadSuffix
    simp only [heq]
    cases hid : normalizeOptionalToken m.identityId <;>
      cases hmode : mode <;>
        cases hlink : resolveLinkedIdentity
            (if normalizeToken (some m.channel) = "" then "unknown"
             else normalizeToken (some m.channel)) (resolvePeerId m) links <;>
          simp [Option.orElse, hid, hlink]

/-- Witness for C1 at the spec's S3 scenario: a telegram group message with
a channel thread id resolves to
"agent:main:telegram:group:peer-1:thread:t-9". -/
theorem C1_witness :
    resolveThreadId
        { channel := "telegram", userId := "user-1", chatType := some .group
          peerId := some "peer-1", channelThreadId := some "t-9" }
        .main [] = "agent:main:telegram:group:peer-1:thread:t-9" := by
  have h :=
    (C1_resolveThreadId_shape
      { channel := "telegram", userId := "user-1", chatType := some .group
        peerId := some "peer-1", channelThreadId := some "t-9" }
      .main []).1 (by decide)
  exact h.trans (by rfl)

/-! ## Claim theorems: per-thread queue -/

/-- Claim C2: in every reachable state of the per-key queue, at most one
task is executing for the key (the drain worker runs at most once at a
time, so no two tasks for the same threadId overlap), and the tasks that
have started executing are exactly an initial segment of the tasks in
submission order. -/
theorem C2_per_key_queue_serializes (s : QueueState) (h : QueueReachable s) :
    (s.drains.filter DrainPhase.isBusy).length ≤ 1 ∧
    ∃ rest, s.enqueued = s.begun ++ rest := by
  obtain ⟨hlen, hlog⟩ := queueInv_reachable h
  refine ⟨le_trans (List.length_filter_le _ _) ?_, s.pending, hlog⟩
  by_cases hr : s.running <;> simp_all [hr]

/-- Witness for C2 at the state reached by a single `enqueue`. -/
theorem C2_witness :
    (({ pending := [7], running := true, drains := [.idle], enqueued := [7]
        begun := [] } : QueueState).drains.filter DrainPhase.isBusy).length ≤ 1 ∧
    ∃ rest,
      ({ pending := [7], running := true, drains := [.idle], enqueued := [7]
         begun := [] } : QueueState).enqueued =
        ({ pending := [7], running := true, drains := [.idle], enqueued := [7]
           begun := [] } : QueueState).begun ++ rest :=
  C2_per_key_queue_serializes
    { pending := [7], running := true, drains := [.idle], enqueued := [7], begun := [] }
    (Relation.ReflTransGen.single (QueueStep.enqueue QueueState.init 7))

/-! ## Claim theorems: idempotency -/

/-- Claim C3: while a completed entry for a key is live (it was stored and
`now - ts` is within the TTL), re-submitting that key with a different
fingerprint returns the 409-shaped result whose body carries the error
"Idempotency key conflict." with `cached = true`, and re-submitting with
the same fingerprint returns the stored result with `cached = true`. -/
theorem C3_idempotency_replay_and_conflict (s : IdemState) (key fp : String)
    (now : Int) (taskResult : IdemResult) (e : IdemEntry)
    (hfound : alookup key s.done = some e) (hlive : now - e.ts ≤ s.ttlMs) :
    (e.fingerprint ≠ fp →
      (idemExecute s key fp now taskResult).1 = idemConflictResult ∧
      (idemExecute s key fp now taskResult).2.1 = true ∧
      idemConflictResult.status = 409 ∧
      alookup "error" idemConflictResult.body =
        some (.str "Idempotency key conflict.")) ∧
    (e.fingerprint = fp →
      (idemExecute s key fp now taskResult).1 = e.result ∧
      (idemExecute s key fp now taskResult).2.1 = true) := by
  have hclean : alookup key (idemCleanup now s).done = some e := by
    unfold idemCleanup
    exact alookup_filter _ key e s.done hfound (by simp [hlive, Int.not_lt])
  constructor
  · intro hne
    unfold idemExecute
    simp [hclean, hne, alookup, idemConflictResult]
  · intro heq
    unfold idemExecute
    simp [hclean, heq]

/-- Witness for C3 at a concrete store: a key completed at `ts = 0` with
fingerprint "fpA", re-submitted at `now = 1000` with fingerprint "fpB"
(conflict) and with "fpA" (replay). -/
theorem C3_witness :
    (idemExecute
        { ttlMs := 300000
          done := [("k", { ts := 0, fingerprint := "fpA"
                           result := { status := 200, body := [("reply", .str "ok")] } })] }
        "k" "fpB" 1000
        { status := 200, body := [] }).1 = idemConflictResult ∧
    (idemExecute
        { ttlMs := 300000
          done := [("k", { ts := 0, fingerprint := "fpA"
                           result := { status := 200, body := [("reply", .str "ok")] } })] }
        "k" "fpA" 1000
        { status := 200, body := [] }).2.1 = true := by
  have h1 :=
    C3_idempotency_replay_and_conflict
      { ttlMs := 300000
        done := [("k", { ts := 0, fingerprint := "fpA"
                         result := { status := 200, body := [("reply", .str "ok")] } })] }
      "k" "fpB" 1000 { status := 200, body := [] }
      { ts := 0, fingerprint := "fpA"
        result := { status := 200, body := [("reply", .str "ok")] } }
      rfl (by decide)
  have h2 :=
    C3_idempotency_replay_and_conflict
      { ttlMs := 300000
        done := [("k", { ts := 0, fingerprint := "fpA"
                         result := { status := 200, body := [("reply", .str "ok")] } })] }
      "k" "fpA" 1000 { status := 200, body := [] }
      { ts := 0, fingerprint := "fpA"
        result := { status := 200, body := [("reply", .str "ok")] } }
      rfl (by decide)
  exact ⟨(h1.1 (by decide)).1, (h2.2 rfl).2⟩

/-! ## App server client process lifecycle (SDK `AppServerClient`)

`close()` sets `isClosing`, and when a child process handle is present ends
its stdin, kills it and clears the process/stream handles; it then resets
`initialized`, `threadId` and `currentTurnId`.  `watchProcessExit(proc)`
fires when the awaited child exits: it returns without doing anything when
the stored handle no longer matches or the client is closing, and otherwise
rejects every pending request with the exit-code/stderr-tail error and
clears the pending table. -/

/-- The `AppServerClient` fields touched by `close` and
`watchProcessExit`, with audit logs for rejected calls and kills. -/
structure ClientState where
  /-- `this.proc` (`none` = `null`); the `Nat` identifies the spawn. -/
  procId : Option Nat
  /-- `this.stdin` is non-null and not yet ended. -/
  stdinOpen : Bool
  isClosing : Bool
  initialized : Bool
  threadId : Option String
  currentTurnId : Option String
  /-- Ids of in-flight requests (`pendingRequests` keys). -/
  pending : List Nat
  /-- Audit log: every rejected pending call, with its error message. -/
  rejected : List (Nat × String)
  /-- Audit log: every `proc.kill()` call. -/
  killed : List Nat
  deriving Repr, DecidableEq

/-- `close()`. -/
def clientClose (s : ClientState) : ClientState :=
  let s := { s with isClosing := true }
  let s :=
    match s.procId with
    | some pid =>
      { s with stdinOpen := false, killed := s.killed ++ [pid], procId := none }
    | none => s
  { s with initialized := false, threadId := none, currentTurnId := none }

/-- `watchProcessExit(proc)` at the moment the child exits with the error
message `exitMessage` (built from the exit code and the stderr tail). -/
def watchProcessExit (s : ClientState) (procRef : Nat) (exitMessage : String) :
    ClientState :=
  if s.procId ≠ some procRef ∨ s.isClosing then s
  else
    { s with
      rejected := s.rejected ++ s.pending.map (fun id => (id, exitMessage))
      pending := [] }

/-- Claim C5 counterexample: with one in-flight request, `close()` leaves
the pending table untouched and rejects nothing — there is no
"client closed" rejection — and the subsequent process-exit watcher also
rejects nothing because the handle was cleared and `isClosing` is set. -/
theorem C5_counterexample :
    (clientClose
        { procId := some 1, stdinOpen := true, isClosing := false
          initialized := true, threadId := some "t", currentTurnId := none
          pending := [3], rejected := [], killed := [] }).pending = [3] ∧
    (clientClose
        { procId := some 1, stdinOpen := true, isClosing := false
          initialized := true, threadId := some "t", currentTurnId := none
          pending := [3], rejected := [], killed := [] }).rejected = [] ∧
    ∀ msg,
      watchProcessExit
          (clientClose
            { procId := some 1, stdinOpen := true, isClosing := false
              initialized := true, threadId := some "t", currentTurnId := none
              pending := [3], rejected := [], killed := [] }) 1 msg =
        clientClose
          { procId := some 1, stdinOpen := true, isClosing := false
            initialized := true, threadId := some "t", currentTurnId := none
            pending := [3], rejected := [], killed := [] } := by
  refine ⟨rfl, rfl, fun msg => ?_⟩
  rfl

/-- Claim C5 (amended): `close()` ends the child's stdin, kills the child,
clears the handles, and is idempotent; but pending in-flight calls are
*not* rejected — they remain pending, and the exit watcher skips its
rejection pass for a closed client. -/
theorem C5_close_behavior (s : ClientState) (pid : Nat)
    (hproc : s.procId = some pid) :
    (clientClose s).stdinOpen = false ∧
    (clientClose s).killed = s.killed ++ [pid] ∧
    (clientClose s).procId = none ∧
    (clientClose s).isClosing = true ∧
    (clientClose s).pending = s.pending ∧
    (clientClose s).rejected = s.rejected ∧
    clientClose (clientClose s) = clientClose s ∧
    ∀ procRef msg, watchProcessExit (clientClose s) procRef msg = clientClose s := by
  refine ⟨?_, ?_, ?_, ?_, ?_, ?_, ?_, ?_⟩ <;>
    simp [clientClose, watchProcessExit, hproc]

/-- Witness for C5 (amended) at a concrete client state. -/
theorem C5_witness :
    (clientClose
        { procId := some 2, stdinOpen := true, isClosing := false
          initialized := true, threadId := none, currentTurnId := none
          pending := [9], rejected := [], killed := [] }).stdinOpen = false ∧
    (clientClose
        { procId := some 2, stdinOpen := true, isClosing := false
          initialized := true, threadId := none, currentTurnId := none
          pending := [9], rejected := [], killed := [] }).pending = [9] :=
  have h :=
    C5_close_behavior
      { procId := some 2, stdinOpen := true, isClosing := false
        initialized := true, threadId := none, currentTurnId := none
        pending := [9], rejected := [], killed := [] } 2 rfl
  ⟨h.1, h.2.2.2.2.1⟩

/-! ## Reverse JSON-RPC requests and notification translation (SDK)

`handleMessage` classifies an inbound line: both `id` and `method` present
is a server→client request handled by `handleServerRequest`; the two
approval methods are auto-answered with the configured decision and
forwarded to every notification listener; any other reverse request gets a
Method-not-supported error response.  `translateNotification` maps
protocol notifications to `AgentEvent`s. -/

/-- `ApprovalResponseDecision`. -/
inductive ApprovalDecision where
  | accept : ApprovalDecision
  | decline : ApprovalDecision
  deriving Repr, DecidableEq

/-- The wire string of a decision. -/
def ApprovalDecision.wire : ApprovalDecision → String
  | .accept => "accept"
  | .decline => "decline"

/-- Constructor default: `options.approvalResponseDecision ?? "accept"`. -/
def defaultApprovalResponseDecision (configured : Option ApprovalDecision) :
    ApprovalDecision :=
  configured.getD .accept

/-- A server→client JSON-RPC request `{id, method, params?}`. -/
structure JsonRpcRequestMsg where
  id : Int
  method : String
  params : JValue
  deriving Repr

/-- A JSON-RPC response written to the child's stdin. -/
structure JsonRpcResponseMsg where
  id : Int
  result : Option JValue
  error : Option (Int × String)
  deriving Repr

/-- `sendJsonRpcResponse(id, result?, error?)`: returns the list of
responses written to stdin (empty when stdin is gone; on the success path
a missing result becomes `{}` via `result ?? {}`). -/
def sendJsonRpcResponse (stdinOpen : Bool) (id : Int) (result : Option JValue)
    (error : Option (Int × String)) : List JsonRpcResponseMsg :=
  if stdinOpen then
    match error with
    | some e => [{ id := id, result := none, error := some e }]
    | none => [{ id := id, result := some (result.getD (.obj [])), error := none }]
  else []

/-- `handleServerRequest(request)`: the responses written to stdin and the
notifications forwarded to each registered listener. -/
def handleServerRequest (stdinOpen : Bool) (decision : ApprovalDecision)
    (req : JsonRpcRequestMsg) : List JsonRpcResponseMsg × List (String × JValue) :=
  if req.method = "item/commandExecution/requestApproval" ∨
      req.method = "item/fileChange/requestApproval" then
    (sendJsonRpcResponse stdinOpen req.id
        (some (.obj [("decision", .str decision.wire)])) none,
      [(req.method, req.params)])
  else
    (sendJsonRpcResponse stdinOpen req.id none
        (some (-32601, "Method not supported: " ++ req.method)), [])

/-- The uniform `AgentEvent` stream type; payloads that flow through
untyped casts are kept as `JValue`s. -/
inductive AgentEvent where
  | text : JValue → AgentEvent
  | reasoning : JValue → AgentEvent
  | toolStart : JValue → String → JValue → AgentEvent
  | toolEnd : JValue → JValue → Bool → AgentEvent
  | done : AgentEvent
  | error : JValue → AgentEvent
  | activity : AgentEvent
  deriving Repr

/-- Strict equality of an untyped value with a string literal
(`x === "lit"`). -/
def JValue.eqStr : JValue → String → Bool
  | .str s, t => s = t
  | _, _ => false

/-- `a ?? b`. -/
def jsNullishCoalesce (a b : JValue) : JValue :=
  if a.nullish then b else a

mutual

/-- JavaScript `String(x)` on modelled values (array elements stringify
with `null`/`undefined` as empty, objects as "[object Object]"). -/
def jsString : JValue → String
  | .undefined => "undefined"
  | .null => "null"
  | .bool b => if b then "true" else "false"
  | .num n => toString n
  | .str s => s
  | .obj _ => "[object Object]"
  | .arr items => String.intercalate "," (jsStringArrayElems items)

/-- Array elements under `String(...)`. -/
def jsStringArrayElems : List JValue → List String
  | [] => []
  | .null :: rest => "" :: jsStringArrayElems rest
  | .undefined :: rest => "" :: jsStringArrayElems rest
  | v :: rest => jsString v :: jsStringArrayElems rest

end

/-- `x?.[0]` tail: element access on the non-nullish value. -/
def jsIndex0 : JValue → JValue
  | .arr (c :: _) => c
  | .obj entries => JValue.get (.obj entries) "0"
  | _ => .undefined

/-- `(exitCode ?? 0) !== 0` where `exitCode` is `item.exitCode` cast to
`number | undefined`. -/
def jsExitCodeIsError (v : JValue) : Bool :=
  match v with
  | .undefined => false
  | .null => false
  | .num n => n ≠ 0
  | _ => true

/-- `translateNotification(notification)` with the current `currentTurnId`
threaded through: the emitted `AgentEvent`s and the new turn id. -/
def translateNotification (turnId : JValue) (method : String) (params : JValue) :
    List AgentEvent × JValue :=
  if method = "item/agentMessage/delta" then ([.text (params.get "delta")], turnId)
  else if method = "item/reasoning/textDelta" then
    ([.reasoning (params.get "delta")], turnId)
  else if method = "item/started" then
    let item := params.get "item"
    if ¬ item.truthy then ([], turnId)
    else
      let itemId := item.get "id"
      if (item.get "type").eqStr "commandExecution" then
        ([.toolStart itemId "Bash"
            (.obj [("command", item.get "command"), ("cwd", item.get "cwd")])], turnId)
      else if (item.get "type").eqStr "fileChange" then
        let changes := item.get "changes"
        let firstChange := if changes.nullish then .undefined else jsIndex0 changes
        let kind := if firstChange.nullish then .undefined else firstChange.get "kind"
        let kindType := if kind.nullish then .undefined else kind.get "type"
        let toolName := if kindType.eqStr "add" then "Write" else "Edit"
        ([.toolStart itemId toolName
            (.obj [("file_path",
              if firstChange.nullish then JValue.undefined else firstChange.get "path")])],
          turnId)
      else if (item.get "type").eqStr "mcpToolCall" then
        ([.toolStart itemId (jsString (jsNullishCoalesce (item.get "tool") (.str "tool")))
            (item.get "arguments")], turnId)
      else ([], turnId)
  else if method = "item/completed" then
    let item := params.get "item"
    if ¬ item.truthy then ([], turnId)
    else
      let itemId := item.get "id"
      if (item.get "type").eqStr "commandExecution" then
        ([.toolEnd itemId (item.get "aggregatedOutput")
            (jsExitCodeIsError (item.get "exitCode"))], turnId)
      else if (item.get "type").eqStr "fileChange" then
        ([.toolEnd itemId .undefined false], turnId)
      else if (item.get "type").eqStr "mcpToolCall" then
        ([.toolEnd itemId (item.get "result") false], turnId)
      else ([], turnId)
  else if method = "turn/started" then
    let turn := params.get "turn"
    if turn.truthy then ([], turn.get "id") else ([], turnId)
  else if method = "turn/completed" then
    let turn := params.get "turn"
    if turn.truthy then
      if (turn.get "status").eqStr "failed" then
        let e := turn.get "error"
        let m := if e.nullish then JValue.undefined else e.get "message"
        ([.error (if m.nullish then .str "Unknown error" else m)], .null)
      else ([.done], .null)
    else ([.done], .null)
  else if method = "error" then ([], turnId)
  else if method = "item/commandExecution/requestApproval" ∨
      method = "item/fileChange/requestApproval" then
    ([.activity], turnId)
  else ([], turnId)

/-- Claim C6: an approval reverse request (`item/commandExecution/…` or
`item/fileChange/…` `requestApproval`) produces exactly one JSON-RPC
response on the child's stdin carrying the configured decision ("accept"
by default) and is forwarded once, translating to exactly one `activity`
event; any other reverse request receives exactly one error response
saying the method is not supported and is not forwarded. -/
theorem C6_reverse_request_responses (decision : ApprovalDecision)
    (id : Int) (method : String) (params : JValue) (turnId : JValue) :
    (method = "item/commandExecution/requestApproval" ∨
        method = "item/fileChange/requestApproval" →
      handleServerRequest true decision { id := id, method := method, params := params } =
        ([{ id := id
            result := some (.obj [("decision", .str decision.wire)])
            error := none }],
          [(method, params)]) ∧
      (translateNotification turnId method params).1 = [.activity]) ∧
    (method ≠ "item/commandExecution/requestApproval" →
      method ≠ "item/fileChange/requestApproval" →
      handleServerRequest true decision { id := id, method := method, params := params } =
        ([{ id := id
            result := none
            error := some (-32601, "Method not supported: " ++ method) }],
          [])) ∧
    defaultApprovalResponseDecision none = .accept := by
  refine ⟨?_, ?_, rfl⟩
  · rintro (rfl | rfl) <;>
      exact ⟨rfl, rfl⟩
  · intro h1 h2
    simp [handleServerRequest, sendJsonRpcResponse, h1, h2]

/-- Witness for C6 at a concrete approval request and a concrete unknown
method. -/
theorem C6_witness :
    handleServerRequest true .accept
        { id := 4, method := "item/commandExecution/requestApproval"
          params := .obj [] } =
      ([{ id := 4, result := some (.obj [("decision", .str "accept")]), error := none }],
        [("item/commandExecution/requestApproval", .obj [])]) ∧
    handleServerRequest true .accept
        { id := 5, method := "thread/tokenCount", params := .obj [] } =
      ([{ id := 5, result := none
          error := some (-32601, "Method not supported: thread/tokenCount") }],
        []) :=
  have h1 :=
    (C6_reverse_request_responses .accept 4 "item/commandExecution/requestApproval"
      (.obj []) .null).1 (Or.inl rfl)
  have h2 :=
    ((C6_reverse_request_responses .accept 5 "thread/tokenCount"
      (.obj []) .null).2).1 (by decide) (by decide)
  ⟨h1.1, h2⟩

/-! ## Codex thread-start parameter mapping (SDK)

`buildThreadStartParams` assembles the wire `params` for `thread/start`:
`{cwd, model?}`, then the instruction fields, the MCP fields and the Codex
execution fields.  For the `codex` provider the MCP server map is
flattened into `config` as dotted `mcp_servers.{alias}.{key}` entries by
`normalizeMcpServersForCodexConfigOverrides`; for other providers it is
passed through as `mcpServers`. -/

/-- A string option under JavaScript truthiness (`o?.field &&` guards):
`none` for absent or empty. -/
def jsTruthyStr (o : Option String) : Option String :=
  match o with
  | some s => if s = "" then none else some s
  | none => none

/-- `...(cond && { key: value })` for a truthy string option. -/
def truthyStrField (o : Option String) (key : String) : List (String × JValue) :=
  match jsTruthyStr o with
  | some v => [(key, .str v)]
  | none => []

/-- `...(typeof cfg.src === "string" ? { dst: cfg.src } : {})`. -/
def strField (cfg : List (String × JValue)) (src dst : String) :
    List (String × JValue) :=
  match JValue.get (.obj cfg) src with
  | .str s => [(dst, .str s)]
  | _ => []

/-- `...(Array.isArray(cfg.src) ? { dst: cfg.src } : {})`. -/
def arrField (cfg : List (String × JValue)) (src dst : String) :
    List (String × JValue) :=
  match JValue.get (.obj cfg) src with
  | .arr a => [(dst, .arr a)]
  | _ => []

/-- `...(isRecord(cfg.src) ? { dst: cfg.src } : {})`. -/
def objField (cfg : List (String × JValue)) (src dst : String) :
    List (String × JValue) :=
  match JValue.get (.obj cfg) src with
  | .obj o => [(dst, .obj o)]
  | _ => []

/-- The stdio branch of `normalizeMcpServersForCodex`: keep
`command`/`args`/`env`/`cwd` (each with its type guard). -/
def stdioWireFields (cfg : List (String × JValue)) : List (String × JValue) :=
  strField cfg "command" "command" ++ arrField cfg "args" "args" ++
    objField cfg "env" "env" ++ strField cfg "cwd" "cwd"

/-- The http/streamable_http branch of `normalizeMcpServersForCodex`:
`url` kept, `headers → http_headers`, `envHeaders → env_http_headers`,
`bearerTokenEnvVar → bearer_token_env_var`. -/
def httpWireFields (cfg : List (String × JValue)) : List (String × JValue) :=
  strField cfg "url" "url" ++ objField cfg "headers" "http_headers" ++
    objField cfg "envHeaders" "env_http_headers" ++
    strField cfg "bearerTokenEnvVar" "bearer_token_env_var"

/-- Per-server body of `normalizeMcpServersForCodex`: dispatch on the
lowercased `type` field (`cfg` is `{}` when the raw config is not a
record, and an unrecognized type passes the config through unchanged). -/
def normalizeServerConfigForCodex (rawConfig : JValue) : JValue :=
  let cfg : List (String × JValue) :=
    match rawConfig with
    | .obj entries => entries
    | _ => []
  let type? : Option String :=
    match JValue.get (.obj cfg) "type" with
    | .str s => some (jsToLower s)
    | _ => none
  if type? = some "stdio" then .obj (stdioWireFields cfg)
  else if type? = some "http" ∨ type? = some "streamable_http" then
    .obj (httpWireFields cfg)
  else .obj cfg

/-- `normalizeMcpServersForCodex(mcpServers)`. -/
def normalizeMcpServersForCodex (servers : List (String × JValue)) :
    List (String × JValue) :=
  servers.map (fun nv => (nv.1, normalizeServerConfigForCodex nv.2))

/-- `normalizeMcpServersForCodexConfigOverrides(mcpServers)`: flatten every
(record) normalized config into dotted `mcp_servers.{alias}.{key}`
entries. -/
def normalizeMcpServersForCodexConfigOverrides (servers : List (String × JValue)) :
    List (String × JValue) :=
  (normalizeMcpServersForCodex servers).flatMap (fun nc =>
    match nc.2 with
    | .obj entries =>
      entries.map (fun kv => ("mcp_servers." ++ nc.1 ++ "." ++ kv.1, kv.2))
    | _ => [])

/-- `CreateThreadOptions` (resume options share the shape where mapped). -/
structure CreateThreadOptions where
  model : Option String := none
  systemPrompt : Option String := none
  systemPromptAppend : Option String := none
  mcpServers : Option (List (String × JValue)) := none
  approvalPolicy : Option String := none
  sandboxMode : Option String := none

/-- The fields added by `applyInstructionParams`: a truthy `systemPrompt`
becomes `baseInstructions` for codex and `systemPrompt` otherwise; a truthy
`systemPromptAppend` becomes `developerInstructions` for codex and
`systemPromptAppend` otherwise. -/
def instructionParamsFields (provider : String)
    (systemPrompt systemPromptAppend : Option String) : List (String × JValue) :=
  truthyStrField systemPrompt
      (if provider = "codex" then "baseInstructions" else "systemPrompt") ++
    truthyStrField systemPromptAppend
      (if provider = "codex" then "developerInstructions" else "systemPromptAppend")

/-- The fields added by `applyMcpParams`. -/
def mcpParamsFields (provider : String)
    (mcpServers : Option (List (String × JValue))) : List (String × JValue) :=
  match mcpServers with
  | none => []
  | some servers =>
    if provider = "codex" then
      [("config", .obj (normalizeMcpServersForCodexConfigOverrides servers))]
    else [("mcpServers", .obj servers)]

/-- The fields added by `applyCodexExecutionParams`. -/
def codexExecutionParamsFields (provider : String)
    (approvalPolicy sandboxMode : Option String) : List (String × JValue) :=
  if provider ≠ "codex" then []
  else truthyStrField approvalPolicy "approvalPolicy" ++
    truthyStrField sandboxMode "sandbox"

/-- `buildThreadStartParams(options)` for a client with the given provider
and working directory. -/
def buildThreadStartParams (provider cwd : String) (o : CreateThreadOptions) :
    List (String × JValue) :=
  ([("cwd", .str cwd)] ++ truthyStrField o.model "model") ++
    instructionParamsFields provider o.systemPrompt o.systemPromptAppend ++
    mcpParamsFields provider o.mcpServers ++
    codexExecutionParamsFields provider o.approvalPolicy o.sandboxMode

/-- `ResumeThreadOptions`: the `thread/resume` variant of the thread
options (`cwd` is an optional override here instead of the client's fixed
working directory). -/
structure ResumeThreadOptions where
  cwd : Option String := none
  model : Option String := none
  systemPrompt : Option String := none
  systemPromptAppend : Option String := none
  mcpServers : Option (List (String × JValue)) := none
  approvalPolicy : Option String := none
  sandboxMode : Option String := none

/-- `buildThreadResumeParams(threadId, options)`: `{threadId, cwd?, model?}`
(truthy spreads), then the same instruction, MCP and Codex execution
appliers as `buildThreadStartParams`. -/
def buildThreadResumeParams (provider threadId : String)
    (o : ResumeThreadOptions) : List (String × JValue) :=
  ([("threadId", .str threadId)] ++ truthyStrField o.cwd "cwd" ++
      truthyStrField o.model "model") ++
    instructionParamsFields provider o.systemPrompt o.systemPromptAppend ++
    mcpParamsFields provider o.mcpServers ++
    codexExecutionParamsFields provider o.approvalPolicy o.sandboxMode

/-! ### Lemmas about parameter assembly -/

theorem alookup_append_of_none {α : Type} (k : String) (l1 l2 : List (String × α))
    (h : alookup k l1 = none) : alookup k (l1 ++ l2) = alookup k l2 := by
  induction l1 with
  | nil => simp
  | cons kv rest ih =>
    by_cases hk : kv.1 = k
    · simp [alookup, hk] at h
    · simp only [List.cons_append]
      simp only [alookup, hk, if_false] at h ⊢
      exact ih h

theorem alookup_append_of_some {α : Type} (k : String) (l1 l2 : List (String × α))
    (v : α) (h : alookup k l1 = some v) : alookup k (l1 ++ l2) = some v := by
  induction l1 with
  | nil => simp [alookup] at h
  | cons kv rest ih =>
    by_cases hk : kv.1 = k
    · simp only [alookup, hk, if_true] at h
      simp only [List.cons_append, alookup, hk, if_true]
      exact h
    · simp only [alookup, hk, if_false] at h
      simp only [List.cons_append, alookup, hk, if_false]
      exact ih h

theorem alookup_eq_none_of_keys {α : Type} (k : String) (l : List (String × α))
    (h : ∀ kv ∈ l, kv.1 ≠ k) : alookup k l = none := by
  induction l with
  | nil => rfl
  | cons kv rest ih =>
    have hk : kv.1 ≠ k := h kv (List.mem_cons_self kv rest)
    simp only [alookup, hk, if_false]
    exact ih (fun kv' hm => h kv' (List.mem_cons_of_mem kv hm))

theorem truthyStrField_key (o : Option String) (key : String) :
    ∀ kv ∈ truthyStrField o key, kv.1 = key := by
  rcases o with _ | s
  · simp [truthyStrField, jsTruthyStr]
  · by_cases hs : s = "" <;> simp [truthyStrField, jsTruthyStr, hs]

theorem instructionParamsFields_keys (provider : String) (sp spa : Option String) :
    ∀ kv ∈ instructionParamsFields provider sp spa,
      kv.1 = (if provider = "codex" then "baseInstructions" else "systemPrompt") ∨
      kv.1 = (if provider = "codex" then "developerInstructions"
              else "systemPromptAppend") := by
  intro kv hm
  unfold instructionParamsFields at hm
  rcases List.mem_append.mp hm with hkv | hkv
  · exact Or.inl (truthyStrField_key _ _ kv hkv)
  · exact Or.inr (truthyStrField_key _ _ kv hkv)

theorem codexExecutionParamsFields_keys (provider : String) (ap sm : Option String) :
    ∀ kv ∈ codexExecutionParamsFields provider ap sm,
      kv.1 = "approvalPolicy" ∨ kv.1 = "sandbox" := by
  intro kv hm
  unfold codexExecutionParamsFields at hm
  by_cases hp : provider = "codex"
  · simp [hp] at hm
    rcases hm with hm | hm
    · exact Or.inl (truthyStrField_key ap "approvalPolicy" kv hm)
    · exact Or.inr (truthyStrField_key sm "sandbox" kv hm)
  · simp [hp] at hm

theorem strField_keys (cfg : List (String × JValue)) (src dst : String) :
    ∀ kv ∈ strField cfg src dst, kv.1 = dst := by
  intro kv hm
  unfold strField at hm
  (cases h : JValue.get (.obj cfg) src <;> simp [h] at hm); simp_all

theorem arrField_keys (cfg : List (String × JValue)) (src dst : String) :
    ∀ kv ∈ arrField cfg src dst, kv.1 = dst := by
  intro kv hm
  unfold arrField at hm
  (cases h : JValue.get (.obj cfg) src <;> simp [h] at hm); simp_all

theorem objField_keys (cfg : List (String × JValue)) (src dst : String) :
    ∀ kv ∈ objField cfg src dst, kv.1 = dst := by
  intro kv hm
  unfold objField at hm
  (cases h : JValue.get (.obj cfg) src <;> simp [h] at hm); simp_all

theorem stdioWireFields_keys (cfg : List (String × JValue)) :
    ∀ k ∈ jkeys (stdioWireFields cfg),
      k ∈ ["command", "args", "env", "cwd"] := by
  intro k hk
  unfold jkeys stdioWireFields at hk
  simp only [List.map_append, List.mem_append] at hk
  rcases hk with ((hk | hk) | hk) | hk
  · obtain ⟨kv, hkv, rfl⟩ := List.mem_map.mp hk
    have hd := strField_keys cfg "command" "command" kv hkv
    simp [hd]
  · obtain ⟨kv, hkv, rfl⟩ := List.mem_map.mp hk
    have hd := arrField_keys cfg "args" "args" kv hkv
    simp [hd]
  · obtain ⟨kv, hkv, rfl⟩ := List.mem_map.mp hk
    have hd := objField_keys cfg "env" "env" kv hkv
    simp [hd]
  · obtain ⟨kv, hkv, rfl⟩ := List.mem_map.mp hk
    have hd := strField_keys cfg "cwd" "cwd" kv hkv
    simp [hd]

theorem httpWireFields_keys (cfg : List (String × JValue)) :
    ∀ k ∈ jkeys (httpWireFields cfg),
      k ∈ ["url", "http_headers", "env_http_headers", "bearer_token_env_var"] := by
  intro k hk
  unfold jkeys httpWireFields at hk
  simp only [List.map_append, List.mem_append] at hk
  rcases hk with ((hk | hk) | hk) | hk
  · obtain ⟨kv, hkv, rfl⟩ := List.mem_map.mp hk
    have hd := strField_keys cfg "url" "url" kv hkv
    simp [hd]
  · obtain ⟨kv, hkv, rfl⟩ := List.mem_map.mp hk
    have hd := objField_keys cfg "headers" "http_headers" kv hkv
    simp [hd]
  · obtain ⟨kv, hkv, rfl⟩ := List.mem_map.mp hk
    have hd := objField_keys cfg "envHeaders" "env_http_headers" kv hkv
    simp [hd]
  · obtain ⟨kv, hkv, rfl⟩ := List.mem_map.mp hk
    have hd := strField_keys cfg "bearerTokenEnvVar" "bearer_token_env_var" kv hkv
    simp [hd]

/-- An http-typed server config takes the http branch of the per-server
normalization. -/
theorem normalizeServerConfig_http (cfg : List (String × JValue)) (ty : String)
    (hty : JValue.get (.obj cfg) "type" = .str ty)
    (hk : jsToLower ty = "http" ∨ jsToLower ty = "streamable_http") :
    normalizeServerConfigForCodex (.obj cfg) = .obj (httpWireFields cfg) := by
  unfold normalizeServerConfigForCodex
  simp only [hty]
  have hns : jsToLower ty ≠ "stdio" := by
    rcases hk with hk | hk <;> rw [hk] <;> decide
  rcases hk with hk | hk <;> simp [hk, hns]

/-- A stdio-typed server config takes the stdio branch. -/
theorem normalizeServerConfig_stdio (cfg : List (String × JValue)) (ty : String)
    (hty : JValue.get (.obj cfg) "type" = .str ty)
    (hk : jsToLower ty = "stdio") :
    normalizeServerConfigForCodex (.obj cfg) = .obj (stdioWireFields cfg) := by
  unfold normalizeServerConfigForCodex
  simp [hty, hk]

/-- Any field of a record-shaped normalized config lands in the flattened
overrides under its dotted key. -/
theorem mem_configOverrides_of_mem (servers : List (String × JValue))
    (srv : String) (raw : JValue) (fields : List (String × JValue))
    (k : String) (v : JValue) (hmem : (srv, raw) ∈ servers)
    (hnorm : normalizeServerConfigForCodex raw = .obj fields)
    (hkv : (k, v) ∈ fields) :
    ("mcp_servers." ++ srv ++ "." ++ k, v) ∈
      normalizeMcpServersForCodexConfigOverrides servers := by
  unfold normalizeMcpServersForCodexConfigOverrides normalizeMcpServersForCodex
  rw [List.mem_flatMap]
  refine ⟨(srv, normalizeServerConfigForCodex raw), List.mem_map.mpr ⟨(srv, raw), hmem, rfl⟩, ?_⟩
  simp only [hnorm]
  exact List.mem_map.mpr ⟨(k, v), hkv, rfl⟩

/-- Every key of the flattened overrides has the dotted
`mcp_servers.{srv}.{field}` form for an srv of the input map. -/
theorem configOverrides_keys_dotted (servers : List (String × JValue)) :
    ∀ k v, (k, v) ∈ normalizeMcpServersForCodexConfigOverrides servers →
      ∃ srv field, (∃ c, (srv, c) ∈ servers) ∧
        k = "mcp_servers." ++ srv ++ "." ++ field := by
  intro k v hm
  unfold normalizeMcpServersForCodexConfigOverrides normalizeMcpServersForCodex at hm
  rw [List.mem_flatMap] at hm
  obtain ⟨nc, hnc, hin⟩ := hm
  obtain ⟨⟨srv, raw⟩, hraw, rfl⟩ := List.mem_map.mp hnc
  simp only at hin
  rcases hcfg : normalizeServerConfigForCodex raw with _ | _ | _ | _ | _ | _ | entries <;>
    rw [hcfg] at hin <;>
    first
    | exact absurd hin (List.not_mem_nil _)
    | (obtain ⟨kv, hkv, heq⟩ := List.mem_map.mp hin
       exact ⟨srv, kv.1, ⟨raw, hraw⟩, ((Prod.ext_iff.mp heq).1).symm⟩)

/-- For the codex provider, a lookup other than
`cwd`/`model`/`baseInstructions`/`developerInstructions` misses the
start-params base (cwd, model and instruction fields). -/
theorem codexStartBase_eq_none (cwd : String) (o : CreateThreadOptions)
    (k : String) (h1 : k ≠ "cwd") (h2 : k ≠ "model")
    (h3 : k ≠ "baseInstructions") (h4 : k ≠ "developerInstructions") :
    alookup k (([("cwd", JValue.str cwd)] ++ truthyStrField o.model "model") ++
      instructionParamsFields "codex" o.systemPrompt o.systemPromptAppend) = none := by
  apply alookup_eq_none_of_keys
  intro kv hkv
  simp only [List.mem_append] at hkv
  rcases hkv with (hkv | hkv) | hkv
  · simp at hkv
    subst hkv
    exact Ne.symm h1
  · rw [truthyStrField_key o.model "model" kv hkv]
    exact Ne.symm h2
  · rcases instructionParamsFields_keys "codex" o.systemPrompt o.systemPromptAppend
      kv hkv with h | h
    · simp at h
      rw [h]
      exact Ne.symm h3
    · simp at h
      rw [h]
      exact Ne.symm h4

/-- Resume-params analogue of `codexStartBase_eq_none` (the base here is
threadId, the optional cwd/model overrides and the instruction fields). -/
theorem codexResumeBase_eq_none (threadId : String) (ro : ResumeThreadOptions)
    (k : String) (h0 : k ≠ "threadId") (h1 : k ≠ "cwd") (h2 : k ≠ "model")
    (h3 : k ≠ "baseInstructions") (h4 : k ≠ "developerInstructions") :
    alookup k (([("threadId", JValue.str threadId)] ++ truthyStrField ro.cwd "cwd" ++
        truthyStrField ro.model "model") ++
      instructionParamsFields "codex" ro.systemPrompt ro.systemPromptAppend) = none := by
  apply alookup_eq_none_of_keys
  intro kv hkv
  simp only [List.mem_append] at hkv
  rcases hkv with ((hkv | hkv) | hkv) | hkv
  · simp at hkv
    subst hkv
    exact Ne.symm h0
  · rw [truthyStrField_key ro.cwd "cwd" kv hkv]
    exact Ne.symm h1
  · rw [truthyStrField_key ro.model "model" kv hkv]
    exact Ne.symm h2
  · rcases instructionParamsFields_keys "codex" ro.systemPrompt ro.systemPromptAppend
      kv hkv with h | h
    · simp at h
      rw [h]
      exact Ne.symm h3
    · simp at h
      rw [h]
      exact Ne.symm h4

/-- The shared tail of the codex start and resume params (the MCP fields
followed by the Codex execution fields): it has no `mcpServers` entry, and
its `config` entry is the flattened overrides. -/
theorem codexTailLookup (m : List (String × JValue)) (ap sm : Option String) :
    alookup "mcpServers" (mcpParamsFields "codex" (some m) ++
      codexExecutionParamsFields "codex" ap sm) = none ∧
    alookup "config" (mcpParamsFields "codex" (some m) ++
      codexExecutionParamsFields "codex" ap sm) =
      some (.obj (normalizeMcpServersForCodexConfigOverrides m)) := by
  constructor
  · apply alookup_eq_none_of_keys
    intro kv hkv
    simp only [List.mem_append] at hkv
    rcases hkv with hkv | hkv
    · simp [mcpParamsFields] at hkv
      subst hkv
      exact (by decide : ("config" : String) ≠ "mcpServers")
    · rcases codexExecutionParamsFields_keys "codex" ap sm kv hkv with h | h <;>
        rw [h] <;> decide
  · apply alookup_append_of_some
    simp [mcpParamsFields, alookup]

/-! ## Claim theorems: Codex provider mapping -/

/-- Claim C7: for a codex-provider thread start or resume with
`mcpServers` supplied, the wire params carry no `mcpServers` field and
carry a `config` object all of whose keys have the dotted
`mcp_servers.{srv}.{field}` form; http-kind servers are renamed
field-wise (`headers → http_headers`, `envHeaders → env_http_headers`,
`bearerTokenEnvVar → bearer_token_env_var`, `url` kept) and stdio-kind
servers keep `command`/`args`/`env`/`cwd`. -/
theorem C7_codex_mcp_mapping (cwd threadId : String) (o : CreateThreadOptions)
    (ro : ResumeThreadOptions) (m : List (String × JValue))
    (hm : o.mcpServers = some m) (hmr : ro.mcpServers = some m) :
    alookup "mcpServers" (buildThreadStartParams "codex" cwd o) = none ∧
    alookup "config" (buildThreadStartParams "codex" cwd o) =
      some (.obj (normalizeMcpServersForCodexConfigOverrides m)) ∧
    alookup "mcpServers" (buildThreadResumeParams "codex" threadId ro) = none ∧
    alookup "config" (buildThreadResumeParams "codex" threadId ro) =
      some (.obj (normalizeMcpServersForCodexConfigOverrides m)) ∧
    (∀ k v, (k, v) ∈ normalizeMcpServersForCodexConfigOverrides m →
      ∃ srv field, (∃ c, (srv, c) ∈ m) ∧
        k = "mcp_servers." ++ srv ++ "." ++ field) ∧
    (∀ srv cfg ty, (srv, .obj cfg) ∈ m →
      JValue.get (.obj cfg) "type" = .str ty →
      jsToLower ty = "http" ∨ jsToLower ty = "streamable_http" →
      normalizeServerConfigForCodex (.obj cfg) = .obj (httpWireFields cfg) ∧
      (∀ h, JValue.get (.obj cfg) "headers" = .obj h →
        ("mcp_servers." ++ srv ++ "." ++ "http_headers", JValue.obj h) ∈
          normalizeMcpServersForCodexConfigOverrides m) ∧
      (∀ h, JValue.get (.obj cfg) "envHeaders" = .obj h →
        ("mcp_servers." ++ srv ++ "." ++ "env_http_headers", JValue.obj h) ∈
          normalizeMcpServersForCodexConfigOverrides m) ∧
      (∀ b, JValue.get (.obj cfg) "bearerTokenEnvVar" = .str b →
        ("mcp_servers." ++ srv ++ "." ++ "bearer_token_env_var", JValue.str b) ∈
          normalizeMcpServersForCodexConfigOverrides m) ∧
      (∀ k ∈ jkeys (httpWireFields cfg),
        k ∈ ["url", "http_headers", "env_http_headers", "bearer_token_env_var"])) ∧
    (∀ srv cfg ty, (srv, .obj cfg) ∈ m →
      JValue.get (.obj cfg) "type" = .str ty → jsToLower ty = "stdio" →
      normalizeServerConfigForCodex (.obj cfg) = .obj (stdioWireFields cfg) ∧
      (∀ c, JValue.get (.obj cfg) "command" = .str c →
        ("mcp_servers." ++ srv ++ "." ++ "command", JValue.str c) ∈
          normalizeMcpServersForCodexConfigOverrides m) ∧
      (∀ a, JValue.get (.obj cfg) "args" = .arr a →
        ("mcp_servers." ++ srv ++ "." ++ "args", JValue.arr a) ∈
          normalizeMcpServersForCodexConfigOverrides m) ∧
      (∀ e, JValue.get (.obj cfg) "env" = .obj e →
        ("mcp_servers." ++ srv ++ "." ++ "env", JValue.obj e) ∈
          normalizeMcpServersForCodexConfigOverrides m) ∧
      (∀ c, JValue.get (.obj cfg) "cwd" = .str c →
        ("mcp_servers." ++ srv ++ "." ++ "cwd", JValue.str c) ∈
          normalizeMcpServersForCodexConfigOverrides m) ∧
      (∀ k ∈ jkeys (stdioWireFields cfg), k ∈ ["command", "args", "env", "cwd"])) := by
  refine ⟨?_, ?_, ?_, ?_, configOverrides_keys_dotted m, ?_, ?_⟩
  · unfold buildThreadStartParams
    rw [List.append_assoc _ (mcpParamsFields "codex" o.mcpServers) _, hm,
      alookup_append_of_none _ _ _
        (codexStartBase_eq_none cwd o "mcpServers"
          (by decide) (by decide) (by decide) (by decide))]
    exact (codexTailLookup m o.approvalPolicy o.sandboxMode).1
  · unfold buildThreadStartParams
    rw [List.append_assoc _ (mcpParamsFields "codex" o.mcpServers) _, hm,
      alookup_append_of_none _ _ _
        (codexStartBase_eq_none cwd o "config"
          (by decide) (by decide) (by decide) (by decide))]
    exact (codexTailLookup m o.approvalPolicy o.sandboxMode).2
  · unfold buildThreadResumeParams
    rw [List.append_assoc _ (mcpParamsFields "codex" ro.mcpServers) _, hmr,
      alookup_append_of_none _ _ _
        (codexResumeBase_eq_none threadId ro "mcpServers"
          (by decide) (by decide) (by decide) (by decide) (by decide))]
    exact (codexTailLookup m ro.approvalPolicy ro.sandboxMode).1
  · unfold buildThreadResumeParams
    rw [List.append_assoc _ (mcpParamsFields "codex" ro.mcpServers) _, hmr,
      alookup_append_of_none _ _ _
        (codexResumeBase_eq_none threadId ro "config"
          (by decide) (by decide) (by decide) (by decide) (by decide))]
    exact (codexTailLookup m ro.approvalPolicy ro.sandboxMode).2
  · intro srv cfg ty hmem hty hk
    have hnorm := normalizeServerConfig_http cfg ty hty hk
    refine ⟨hnorm, ?_, ?_, ?_, httpWireFields_keys cfg⟩
    · intro h hh
      refine mem_configOverrides_of_mem m srv (.obj cfg) (httpWireFields cfg)
        "http_headers" (.obj h) hmem hnorm ?_
      unfold httpWireFields objField
      simp [hh]
    · intro h hh
      refine mem_configOverrides_of_mem m srv (.obj cfg) (httpWireFields cfg)
        "env_http_headers" (.obj h) hmem hnorm ?_
      unfold httpWireFields objField
      simp [hh]
    · intro b hb
      refine mem_configOverrides_of_mem m srv (.obj cfg) (httpWireFields cfg)
        "bearer_token_env_var" (.str b) hmem hnorm ?_
      unfold httpWireFields strField
      simp [hb]
  · intro srv cfg ty hmem hty hk
    have hnorm := normalizeServerConfig_stdio cfg ty hty hk
    refine ⟨hnorm, ?_, ?_, ?_, ?_, stdioWireFields_keys cfg⟩
    · intro c hc
      refine mem_configOverrides_of_mem m srv (.obj cfg) (stdioWireFields cfg)
        "command" (.str c) hmem hnorm ?_
      unfold stdioWireFields strField
      simp [hc]
    · intro a ha
      refine mem_configOverrides_of_mem m srv (.obj cfg) (stdioWireFields cfg)
        "args" (.arr a) hmem hnorm ?_
      unfold stdioWireFields arrField
      simp [ha]
    · intro e he
      refine mem_configOverrides_of_mem m srv (.obj cfg) (stdioWireFields cfg)
        "env" (.obj e) hmem hnorm ?_
      unfold stdioWireFields objField
      simp [he]
    · intro c hc
      refine mem_configOverrides_of_mem m srv (.obj cfg) (stdioWireFields cfg)
        "cwd" (.str c) hmem hnorm ?_
      unfold stdioWireFields strField
      simp [hc]

/-- Witness for C7 at a one-server http config, exercising both the
thread-start and the thread-resume params. -/
theorem C7_witness :
    alookup "mcpServers"
        (buildThreadStartParams "codex" "/work"
          { mcpServers := some
              [("figma", .obj
                [("type", .str "http"), ("url", .str "https://figma.example"),
                 ("headers", .obj [("authorization", .str "token")])])] }) = none ∧
    alookup "config"
        (buildThreadStartParams "codex" "/work"
          { mcpServers := some
              [("figma", .obj
                [("type", .str "http"), ("url", .str "https://figma.example"),
                 ("headers", .obj [("authorization", .str "token")])])] }) =
      some (.obj
        [("mcp_servers.figma.url", .str "https://figma.example"),
         ("mcp_servers.figma.http_headers", .obj [("authorization", .str "token")])]) ∧
    alookup "mcpServers"
        (buildThreadResumeParams "codex" "thread-1"
          { mcpServers := some
              [("figma", .obj
                [("type", .str "http"), ("url", .str "https://figma.example"),
                 ("headers", .obj [("authorization", .str "token")])])] }) = none ∧
    alookup "config"
        (buildThreadResumeParams "codex" "thread-1"
          { mcpServers := some
              [("figma", .obj
                [("type", .str "http"), ("url", .str "https://figma.example"),
                 ("headers", .obj [("authorization", .str "token")])])] }) =
      some (.obj
        [("mcp_servers.figma.url", .str "https://figma.example"),
         ("mcp_servers.figma.http_headers", .obj [("authorization", .str "token")])]) :=
  have h :=
    C7_codex_mcp_mapping "/work" "thread-1"
      { mcpServers := some
          [("figma", .obj
            [("type", .str "http"), ("url", .str "https://figma.example"),
             ("headers", .obj [("authorization", .str "token")])])] }
      { mcpServers := some
          [("figma", .obj
            [("type", .str "http"), ("url", .str "https://figma.example"),
             ("headers", .obj [("authorization", .str "token")])])] }
      [("figma", .obj
        [("type", .str "http"), ("url", .str "https://figma.example"),
         ("headers", .obj [("authorization", .str "token")])])] rfl rfl
  ⟨h.1, h.2.1.trans (by rfl), h.2.2.1, h.2.2.2.1.trans (by rfl)⟩

/-! ## Claim theorems: fingerprints -/

/-- Claim C4 counterexample: the fingerprint `POST /v1/threads` passes to
the idempotency store is not the literal request body — the route prefix
"/v1/threads:" is prepended. -/
theorem C4_counterexample : threadsRouteFingerprint "x" ≠ "x" := by decide

/-- Claim C4 (amended): the idempotency fingerprint for `POST /v1/threads`
is "/v1/threads:" followed by the literal request body, and the
fingerprint for `POST /v1/threads/:threadId` is `threadId + ":" + body`. -/
theorem C4_fingerprints (threadId rawBody : String) :
    threadsRouteFingerprint rawBody = "/v1/threads:" ++ rawBody ∧
    threadMessageRouteFingerprint threadId rawBody = threadId ++ ":" ++ rawBody :=
  ⟨rfl, rfl⟩

end Flint
